import Mathlib

/-!
Verification development for the `web_responders` package: a shallow
embedding of its response-rendering engine (`CreateResponse`,
`createResponse`, `createResponseValue`, `createStructResponse`,
`createSliceResponse`, `createMapResponse`, `createNullableDbResponse`,
`ResponseTag`) and its input-error collector (`addInputErrors`,
`RespondWithInputErrors`), together with theorems about them.

Modelling conventions, matching the Go source:
- Go runtime values are modelled by the inductive `Val`.  A value whose
  dynamic type implements one or more of the package's capability
  interfaces (`LazyLoader`, `ResponseObjectCreator`,
  `ResponseValueCreator`, `fmt.Stringer`, `error`) is wrapped with the
  `Val.iface` constructor carrying those capabilities; plain values have
  no wrapper.  Custom `ResponseValue` implementations (arbitrary caller
  code of type `func(objx.Map) interface\x7b\x7d`) are modelled by the
  first-order generator `ProdSpec`, interpreted by `runProducer`: a
  producer either returns a constant or reflects the options it was
  invoked with (enough to observe that the options reach it verbatim).
- `objx.Map` options are modelled by `Opts` (an association list whose
  values are nested nodes or strings).  `Has`/`Get` are modelled as
  direct key lookup (the claims only use dot-free keys, where objx's
  selector semantics coincides with plain lookup).
- Go maps appear as association lists; Go map writes are
  replace-or-append (`setKey`), matching Go map-assignment semantics.
  `objx.Map` results (from struct rendering) are distinguished from
  plain Go maps (from map rendering) by the `isObjxMap` flag of
  `Val.mapV`, because `createStructResponse` asserts embedded results
  to `objx.Map`.
- Run-time panics in the source (type-assertion failures, nil-pointer
  dereference on a nil `*objx.Value`, calling a nil constructor
  function) are modelled as `Except.error` with a dedicated `RErr`
  code; all rendering functions return `Except RErr (Val × List Event)`.
- `LazyLoader.LazyLoad(options)` is an effect on caller-owned state; its
  invocations are recorded in the returned `List Event` (one event per
  invocation, carrying the options passed), in execution order.
- `reflect` specifics modelled: one level of pointer dereference
  (`Val.ptrV`); `reflect.SetMapIndex` with an untyped-nil element
  deletes/omits the key; `FieldByName` is modelled as lookup among the
  struct's own (top-level) fields; field visibility is the case of the
  first character of the field name (ASCII, as in the claims' inputs);
  `reflect.ConvertibleTo` in the input collector is modelled as
  type-name equality (the spec itself leaves the conversion rule open,
  and no claim depends on it).
-/

set_option autoImplicit false

namespace WebResponders

/-- Metadata of one Go struct field: declared name, the `response` and
`db` struct tags (empty string means the tag is absent, as with Go's
`Tag.Get`), and whether the field is embedded (anonymous). -/
structure FieldMeta where
  name : String
  responseTag : String
  dbTag : String
  anonymous : Bool
deriving DecidableEq, Repr

/-- Caller-supplied option values: an `objx.Map` entry is either a nested
options map (MSI / objx.Map, both modelled as `node`) or a string
directive such as `"type": "full"`. -/
inductive OptVal where
  | str (s : String)
  | node (entries : List (String × OptVal))

/-- An `objx.Map` of options.  `none` at use sites models a nil map. -/
abbrev Opts := List (String × OptVal)

mutual
/-- A Go runtime value as seen by the renderer. `iface` wraps a value
whose dynamic type implements capability interfaces: `lazy` for
`LazyLoader`, `respObj` for `ResponseObjectCreator`, `respVal` for
`ResponseValueCreator`, `asString` for `fmt.Stringer`, `asError` for
`error`; `inner` is the value's underlying structure. `ptrV none` is a
nil pointer; `nilV` is an untyped nil interface value. `mapV` carries
whether the map's dynamic type is `objx.Map`. -/
inductive Val where
  | nilV
  | boolV (b : Bool)
  | intV (n : Int)
  | strV (s : String)
  | structV (typeName : String) (fields : List (FieldMeta × Val))
  | sliceV (elems : List Val)
  | mapV (isObjxMap : Bool) (entries : List (String × Val))
  | ptrV (target : Option Val)
  | iface (lazy : Bool) (respObj : Option Val) (respVal : Option ProdSpec)
      (asString : Option String) (asError : Option String) (inner : Val)

/-- First-order model of a caller's `ResponseValue(options)` method
body: either a constant result, or a result that reflects the options
the method was invoked with. -/
inductive ProdSpec where
  | const (v : Val)
  | echoOpts
end

/-- Effects recorded by a rendering pass: each `LazyLoad` invocation,
with the options it was passed. -/
inductive Event where
  | lazyLoad (opts : Option Opts)

/-- Modelled panics of the source: `optionPanic` is
`panic("Don't know what to do with option")`; `nilValueDeref` is the
nil-`*objx.Value` dereference in `createMapResponse` when non-nil
options contain neither the key nor `"*"`; `boolAssert` is the
`.(bool)` assertion on a non-boolean `Valid` field; `mapAssert` is the
`.(objx.Map)` assertion on an embedded field's rendered value;
`nilFunc` is a call of a nil constructor function. -/
inductive RErr where
  | optionPanic
  | nilValueDeref
  | boolAssert
  | mapAssert
  | nilFunc
deriving DecidableEq, Repr

/-- Result of a rendering function: the rendered value plus the lazy-load
events emitted during the render, or a modelled panic. -/
abbrev RRes := Except RErr (Val × List Event)

/-- Constructor callback `func(interface\x7b\x7d, interface\x7b\x7d) interface\x7b\x7d`;
`none` at use sites models a nil function value. -/
abbrev CtorF := Val → Val → Val

/-- Association-list lookup, modelling Go map indexing `m[k]`. -/
def lookupKey {α : Type} : List (String × α) → String → Option α
  | [], _ => none
  | (k', v) :: rest, k => if k' = k then some v else lookupKey rest k

/-- Key-membership test, modelling Go's `_, ok := m[k]`. -/
def containsKey {α : Type} (l : List (String × α)) (k : String) : Bool :=
  (lookupKey l k).isSome

/-- Go map assignment `m[k] = v`: replace the existing entry or append. -/
def setKey {α : Type} : List (String × α) → String → α → List (String × α)
  | [], k, v => [(k, v)]
  | (k', v') :: rest, k, v =>
    if k' = k then (k, v) :: rest else (k', v') :: setKey rest k v

/-- Go map deletion `delete(m, k)`. -/
def eraseKey {α : Type} (l : List (String × α)) (k : String) : List (String × α) :=
  l.filter (fun p => p.1 ≠ k)

/-- Capability getter for `LazyLoader` (checked on the dynamic type of
the value handed to `createResponse`). -/
def lazyCap : Val → Bool
  | .iface lz _ _ _ _ _ => lz
  | _ => false

/-- Capability getter for `ResponseObjectCreator`: the substitute value
returned by `ResponseObject()`, when implemented. -/
def respObjCap : Val → Option Val
  | .iface _ ro _ _ _ _ => ro
  | _ => none

/-- Capability getter for `ResponseValueCreator`. -/
def respValCap : Val → Option ProdSpec
  | .iface _ _ rv _ _ _ => rv
  | _ => none

/-- Capability getter for `fmt.Stringer`: the `String()` result. -/
def strCap : Val → Option String
  | .iface _ _ _ st _ _ => st
  | _ => none

/-- Capability getter for `error`: the `Error()` message. -/
def errCap : Val → Option String
  | .iface _ _ _ _ er _ => er
  | _ => none

/-- Encoding of an option value as a response value, used by the
`echoOpts` producer. -/
def encodeOptVal : OptVal → Val
  | .str s => .strV s
  | .node es => .mapV false (encodeOptEntries es)
where
  /-- Encoding of a list of option entries. -/
  encodeOptEntries : List (String × OptVal) → List (String × Val)
  | [] => []
  | (k, v) :: rest => (k, encodeOptVal v) :: encodeOptEntries rest

/-- Encoding of a whole (possibly nil) options map as a response value. -/
def encodeOpts : Option Opts → Val
  | none => .nilV
  | some m => .mapV false (encodeOptVal.encodeOptEntries m)

/-- Interpretation of a modelled `ResponseValue` body at the options it
is invoked with. -/
def runProducer : ProdSpec → Option Opts → Val
  | .const v, _ => v
  | .echoOpts, o => encodeOpts o

/-- Initial-segment test on character lists, the model of Go's
`strings.HasPrefix` (second argument tested as initial segment of the
first). -/
def listInitial : List Char → List Char → Bool
  | [], _ => true
  | _ :: _, [] => false
  | c :: cs, d :: ds => c = d && listInitial cs ds

/-- Model of `strings.HasPrefix(s, p)`. -/
def strHasInitial (s p : String) : Bool := listInitial p.data s.data

/-- Model of `strings.ToLower` (ASCII, as used by the claims). -/
def toLowerStr (s : String) : String := ⟨s.data.map Char.toLower⟩

/-- Model of `database/sql`'s shared nullable-type name marker, the
constant `SqlNullablePrefix = "Null"` of the source. -/
def sqlNullableMarker : String := "Null"

/-- Model of `value.FieldByName(name)` restricted to the struct's own
fields: the first field with the given declared name, if any. -/
def fieldByName : List (FieldMeta × Val) → String → Option Val
  | [], _ => none
  | (m, v) :: rest, n => if m.name = n then some v else fieldByName rest n

/-- Stripping of capability wrappers: the structural content that
`reflect` kind-dispatch sees. -/
def stripIface : Val → Val
  | .iface _ _ _ _ _ inner => stripIface inner
  | v => v

/-- Model of the single `value.Elem()` pointer dereference in
`createResponse`: the value whose kind the switch inspects (and the
`value` argument handed to the constructor callback).  A nil pointer
stays as-is (its `Elem()` has kind Invalid, reaching the default
branch). -/
def afterDeref (v : Val) : Val :=
  match stripIface v with
  | .ptrV (some t) => t
  | _ => v

/-- Structural kind view used by the `switch value.Kind()` dispatch:
capability wrappers stripped, one pointer level dereferenced. -/
def kindView (v : Val) : Val :=
  match stripIface v with
  | .ptrV (some t) => stripIface t
  | w => w

/-- Model of `responseData`: the value after the
`ResponseObjectCreator` substitution step of `createResponse`. -/
def respObjStep (v : Val) : Val :=
  match respObjCap v with
  | some r => r
  | none => v

/-- Model of `options.Get("type").Str() == "full"`: on a nil map `Get`
yields a nil-data value whose `Str()` is `""`, and a non-string entry
also stringifies to `""`. -/
def isFull : Option Opts → Bool
  | none => false
  | some m =>
    match lookupKey m "type" with
    | some (.str s) => s = "full"
    | _ => false

/-- Sub-options narrowing for a named struct field, modelling lines
205-220 of the source: only entered when the options map is non-nil and
has the exact name or `"*"`; a matching entry that is not a nested map
is the `panic("Don't know what to do with option")`. -/
def narrowStruct (opts : Option Opts) (name : String) : Except RErr (Option Opts) :=
  match opts with
  | none => .ok none
  | some m =>
    if containsKey m name || containsKey m "*" then
      match (match lookupKey m name with
             | some v => some v
             | none => lookupKey m "*") with
      | some (.node sub) => .ok (some sub)
      | _ => .error .optionPanic
    else .ok none

/-- Sub-options narrowing for a map entry, modelling lines 127-143 of
the source.  Unlike the struct path there is no `Has` guard: with a
non-nil options map and neither the key nor `"*"` present, the nil
`*objx.Value` is dereferenced by `IsMSI()` — a run-time panic, modelled
as `nilValueDeref`. -/
def narrowMap (opts : Option Opts) (key : String) : Except RErr (Option Opts) :=
  match opts with
  | none => .ok none
  | some m =>
    match (match lookupKey m key with
           | some v => some v
           | none => lookupKey m "*") with
    | some (.node sub) => .ok (some sub)
    | some (.str _) => .error .optionPanic
    | none => .error .nilValueDeref

/-- Test for the untyped-nil value, modelling
`reflect.ValueOf(x).IsValid() == false` for an element written with
`SetMapIndex`. -/
def isNilV : Val → Bool
  | .nilV => true
  | _ => false

/-- Model of `ResponseTag` (lines 161-172): the `response` tag if
present, else — for fields not literally named `Id` — the `db` tag if
present and not `"-"`, else the lower-cased declared name. -/
def ResponseTag (f : FieldMeta) : String :=
  if f.responseTag ≠ "" then f.responseTag
  else if f.name ≠ "Id" ∧ (f.dbTag ≠ "" ∧ f.dbTag ≠ "-") then f.dbTag
  else toLowerStr f.name

/-- Outcome of `createNullableDbResponse`: a found nullable shape (with
its unwrapped value), the `"No Nullable DB value found"` error return,
or the modelled panic of the `.(bool)` assertion on a non-boolean
`Valid` field. -/
inductive NullRes where
  | found (v : Val)
  | notFound
  | panicked

/-- Model of `createNullableDbResponse` (lines 104-120): fires when the
type name has the nullable marker as initial segment and both the
suffix-named field and a field named `Valid` exist; `Valid` is then
asserted to `bool`. -/
def createNullableDbResponse (typeName : String) (fields : List (FieldMeta × Val)) : NullRes :=
  if strHasInitial typeName sqlNullableMarker then
    let fieldName := typeName.drop sqlNullableMarker.length
    match fieldByName fields fieldName, fieldByName fields "Valid" with
    | some payload, some validVal =>
      match validVal with
      | .boolV true => .found payload
      | .boolV false => .found .nilV
      | _ => .panicked
    | _, _ => .notFound
  else .notFound

/-- Merge of an embedded field's rendered keys into the enclosing
response (lines 193-198): a key already present is never overwritten. -/
def mergeEmbedded (acc : List (String × Val)) (em : List (String × Val)) : List (String × Val) :=
  em.foldl (fun a kv => if containsKey a kv.1 then a else a ++ [kv]) acc

/-- Visibility test of a field, modelling
`unicode.IsUpper(rune(fieldType.Name[0]))` for ASCII names. -/
def isExported (f : FieldMeta) : Bool :=
  f.name.front.isUpper

/-- Events emitted by the lazy-load step of `createResponse`. -/
def lazyEvents (data : Val) (opts : Option Opts) : List Event :=
  if lazyCap data then [Event.lazyLoad opts] else []

/-- Size bound for the capability-stripping view, used for termination. -/
theorem sizeOf_stripIface_le : (v : Val) → sizeOf (stripIface v) ≤ sizeOf v
  | .nilV => le_refl _
  | .boolV _ => le_refl _
  | .intV _ => le_refl _
  | .strV _ => le_refl _
  | .structV _ _ => le_refl _
  | .sliceV _ => le_refl _
  | .mapV _ _ => le_refl _
  | .ptrV _ => le_refl _
  | .iface lz ro rv st er inner => by
    have ih := sizeOf_stripIface_le inner
    simp only [stripIface, Val.iface.sizeOf_spec]
    omega

/-- Stripping capability wrappers never yields a wrapper. -/
theorem stripIface_ne_iface : (v : Val) → ∀ lz ro rv st er inner,
    stripIface v ≠ Val.iface lz ro rv st er inner
  | .nilV => by simp [stripIface]
  | .boolV _ => by simp [stripIface]
  | .intV _ => by simp [stripIface]
  | .strV _ => by simp [stripIface]
  | .structV _ _ => by simp [stripIface]
  | .sliceV _ => by simp [stripIface]
  | .mapV _ _ => by simp [stripIface]
  | .ptrV _ => by simp [stripIface]
  | .iface lz' ro' rv' st' er' inner' => by
    intro lz ro rv st er inner
    simpa [stripIface] using stripIface_ne_iface inner' lz ro rv st er inner

/-- Size bound for the kind-dispatch view, used for termination. -/
theorem sizeOf_kindView_le (v : Val) : sizeOf (kindView v) ≤ sizeOf v := by
  have hs := sizeOf_stripIface_le v
  unfold kindView
  cases h : stripIface v with
  | ptrV t =>
    cases t with
    | some u =>
      have hu := sizeOf_stripIface_le u
      rw [h] at hs
      simp only [Val.ptrV.sizeOf_spec, Option.some.sizeOf_spec] at hs
      show sizeOf (stripIface u) ≤ sizeOf v
      omega
    | none => rw [h] at hs; exact hs
  | nilV => rw [h] at hs; exact hs
  | boolV b => rw [h] at hs; exact hs
  | intV n => rw [h] at hs; exact hs
  | strV s => rw [h] at hs; exact hs
  | structV tn fs => rw [h] at hs; exact hs
  | sliceV es => rw [h] at hs; exact hs
  | mapV o es => rw [h] at hs; exact hs
  | iface lz ro rv st er inner =>
    exact absurd h (stripIface_ne_iface v lz ro rv st er inner)

/-- Size bound for the response-object substitution step, used for
termination. -/
theorem sizeOf_respObjStep_le (v : Val) : sizeOf (respObjStep v) ≤ sizeOf v := by
  unfold respObjStep
  cases v with
  | iface lz ro rv st er inner =>
    cases ro with
    | some r => simp [respObjCap]; omega
    | none => simp [respObjCap]
  | nilV => simp [respObjCap]
  | boolV b => simp [respObjCap]
  | intV n => simp [respObjCap]
  | strV s => simp [respObjCap]
  | structV tn fs => simp [respObjCap]
  | sliceV es => simp [respObjCap]
  | mapV o es => simp [respObjCap]
  | ptrV t => simp [respObjCap]

/-- Combined size bound for the dispatch view of `createResponse`. -/
theorem sizeOf_kindView_respObjStep_le (v : Val) :
    sizeOf (kindView (respObjStep v)) ≤ sizeOf v :=
  le_trans (sizeOf_kindView_le _) (sizeOf_respObjStep_le v)

mutual

/-- Model of the exported `CreateResponse` (lines 41-59): a top-level
value satisfying the `error` capability short-circuits to its message
(before option parsing and before any lazy loading); otherwise
rendering is delegated to `createResponse` with `isSubResponse =
false`.  The variadic option-list parsing is reflected in the typed
`opts`/`ctor` parameters. -/
def CreateResponse (data : Val) (opts : Option Opts) (ctor : Option CtorF) : RRes :=
  match errCap data with
  | some m => .ok (.strV m, [])
  | none => createResponse data false opts ctor
termination_by (sizeOf data, 1)
decreasing_by
  exact Prod.Lex.right _ (by omega)

/-- Model of `createResponse` (lines 61-91): lazy-load hook, response
object substitution, one pointer dereference, then kind dispatch to
struct/slice/map rendering with the slice constructor-callback rule,
returning the value unchanged for other kinds. -/
def createResponse (data : Val) (isSub : Bool) (opts : Option Opts) (ctor : Option CtorF) : RRes :=
  match h : kindView (respObjStep data) with
  | .structV tn fs =>
    match createStructResponse tn fs opts ctor with
    | .error e => .error e
    | .ok (v, e) => .ok (v, lazyEvents data opts ++ e)
  | .sliceV es =>
    match createSliceResponse es opts ctor with
    | .error e => .error e
    | .ok (vs, e) =>
      if opts.isSome && isSub then
        match ctor with
        | some f => .ok (f (.sliceV vs) (afterDeref (respObjStep data)), lazyEvents data opts ++ e)
        | none => .error .nilFunc
      else .ok (.sliceV vs, lazyEvents data opts ++ e)
  | .mapV isObjx es =>
    match createMapResponse isObjx es opts ctor with
    | .error e => .error e
    | .ok (v, e) => .ok (v, lazyEvents data opts ++ e)
  | _ => .ok (respObjStep data, lazyEvents data opts)
termination_by (sizeOf data, 0)
decreasing_by
all_goals
  apply Prod.Lex.left
  have hk := sizeOf_kindView_respObjStep_le data
  rw [h] at hk
  simp only [Val.structV.sizeOf_spec, Val.sliceV.sizeOf_spec, Val.mapV.sizeOf_spec] at hk
  omega

/-- Model of `createStructResponse` (lines 176-226): the nullable-shape
attempt, then the field walk producing an `objx.Map`. -/
def createStructResponse (typeName : String) (fields : List (FieldMeta × Val))
    (opts : Option Opts) (ctor : Option CtorF) : RRes :=
  match createNullableDbResponse typeName fields with
  | .found v => .ok (v, [])
  | .panicked => .error .boolAssert
  | .notFound =>
    match structFields fields opts ctor [] [] with
    | .error e => .error e
    | .ok (m, e) => .ok (.mapV true m, e)
termination_by (sizeOf fields, 1)
decreasing_by
  exact Prod.Lex.right _ (by omega)

/-- Field loop of `createStructResponse` (lines 187-224): embedded
fields are rendered through the exported `CreateResponse` with the same
options, asserted to `objx.Map` and merged without overwriting; visible
named fields are tag-resolved, `"-"` skips, sub-options are narrowed,
and the result of `createResponseValue` is assigned to the key
(replacing an earlier entry, as a Go map write does); invisible fields
are skipped. -/
def structFields (fields : List (FieldMeta × Val)) (opts : Option Opts)
    (ctor : Option CtorF) (acc : List (String × Val)) (evs : List Event) :
    Except RErr (List (String × Val) × List Event) :=
  match fields with
  | [] => .ok (acc, evs)
  | (meta, fv) :: rest =>
    if meta.anonymous then
      match CreateResponse fv opts ctor with
      | .error e => .error e
      | .ok (.mapV true em, evs') =>
        structFields rest opts ctor (mergeEmbedded acc em) (evs ++ evs')
      | .ok _ => .error .mapAssert
    else if isExported meta then
      let name := ResponseTag meta
      if name = "-" then structFields rest opts ctor acc evs
      else
        match narrowStruct opts name with
        | .error e => .error e
        | .ok subOpts =>
          match createResponseValue fv subOpts ctor with
          | .error e => .error e
          | .ok (w, evs') => structFields rest opts ctor (setKey acc name w) (evs ++ evs')
    else structFields rest opts ctor acc evs
termination_by (sizeOf fields, 0)
decreasing_by
all_goals
  apply Prod.Lex.left
  simp only [List.cons.sizeOf_spec, Prod.mk.sizeOf_spec]
  omega

/-- Model of `createSliceResponse` (lines 152-159): each element is
rendered through `createResponseValue` with the same (unnarrowed)
options, preserving order. -/
def createSliceResponse (elems : List Val) (opts : Option Opts) (ctor : Option CtorF) :
    Except RErr (List Val × List Event) :=
  match elems with
  | [] => .ok ([], [])
  | e :: rest =>
    match createResponseValue e opts ctor with
    | .error err => .error err
    | .ok (w, evs) =>
      match createSliceResponse rest opts ctor with
      | .error err => .error err
      | .ok (ws, evs') => .ok (w :: ws, evs ++ evs')
termination_by (sizeOf elems, 0)
decreasing_by
all_goals
  apply Prod.Lex.left
  simp only [List.cons.sizeOf_spec]
  omega

/-- Model of `createMapResponse` (lines 124-148): a new map of the same
type, per-key option narrowing via `narrowMap`, values rendered through
`createResponseValue`; a value rendering to untyped nil is written with
a zero `reflect.Value`, which deletes the key (the entry is omitted). -/
def createMapResponse (isObjx : Bool) (entries : List (String × Val))
    (opts : Option Opts) (ctor : Option CtorF) : RRes :=
  match mapEntries entries opts ctor with
  | .error e => .error e
  | .ok (es, evs) => .ok (.mapV isObjx es, evs)
termination_by (sizeOf entries, 1)
decreasing_by
  exact Prod.Lex.right _ (by omega)

/-- Entry loop of `createMapResponse`. -/
def mapEntries (entries : List (String × Val)) (opts : Option Opts) (ctor : Option CtorF) :
    Except RErr (List (String × Val) × List Event) :=
  match entries with
  | [] => .ok ([], [])
  | (k, v) :: rest =>
    match narrowMap opts k with
    | .error e => .error e
    | .ok elemOpts =>
      match createResponseValue v elemOpts ctor with
      | .error e => .error e
      | .ok (w, evs) =>
        match mapEntries rest opts ctor with
        | .error e => .error e
        | .ok (es, evs') =>
          .ok ((if isNilV w then es else (k, w) :: es), evs ++ evs')
termination_by (sizeOf entries, 0)
decreasing_by
all_goals
  apply Prod.Lex.left
  simp only [List.cons.sizeOf_spec, Prod.mk.sizeOf_spec]
  omega

/-- Model of `createResponseValue` (lines 230-246): unless the narrowed
options set the `"full"` directive, the capability type switch runs in
source order — `ResponseValueCreator` (result used verbatim),
`fmt.Stringer`, `error` — with structural recursion as the default; in
`"full"` mode the switch is skipped and structural recursion is forced. -/
def createResponseValue (v : Val) (opts : Option Opts) (ctor : Option CtorF) : RRes :=
  if isFull opts = false then
    match respValCap v with
    | some p => .ok (runProducer p opts, [])
    | none =>
      match strCap v with
      | some s => .ok (.strV s, [])
      | none =>
        match errCap v with
        | some m => .ok (.strV m, [])
        | none => createResponse v true opts ctor
  else createResponse v true opts ctor
termination_by (sizeOf v, 1)
decreasing_by
all_goals
  exact Prod.Lex.right _ (by omega)

end

/-! ### Input Error Collector -/

/-- Input parameter values, as parsed by the external
`web_request_readers.ParseParams` collaborator. -/
inductive InVal where
  | str (s : String)
  | int (n : Int)
deriving DecidableEq, Repr

/-- Runtime type name of an input value, for the convertibility check. -/
def InVal.tyName : InVal → String
  | .str _ => "string"
  | .int _ => "int"

/-- Model of `reflect.TypeOf(value).ConvertibleTo(fieldType)`, taken as
type-name equality (the spec leaves the conversion rule open, and no
claim depends on its leniency). -/
def convertibleTo (src dst : String) : Bool := src = dst

/-- Capabilities of a field's zero value (`reflect.Zero`, or
`reflect.New` of the element type for pointer fields) as checked by
`addInputErrors` in its fixed preference order: `InputValidator`,
`RequestValueReceiver`, then plain convertibility to the field type. -/
structure IOCaps where
  validator : Option (InVal → Option String)
  receiver : Option (InVal → Option String)
  fieldTy : String

/-- Field descriptor of a collector target type.  `named` carries the
outputs of the external `web_request_readers.NameAndArgs` collaborator
(the resolved input name and the tag argument list); `anon` is an
embedded field with its nested type's fields. -/
inductive InField where
  | anon (fields : List InField)
  | named (name : String) (args : List String) (caps : IOCaps)

/-- Flat parameter set `objx.Map` handed to the collector. -/
abbrev Params := List (String × InVal)

/-- Notification map of input error messages. -/
abbrev MessageMap := List (String × String)

/-- Modelled from the spec: the repository's `MessageMap.SetInputMessage`
(defined outside the given sources) — "a mapping from input field name
to one message string; entries are set, not appended — a later write for
the same key replaces the earlier one." -/
def setInputMessage (m : MessageMap) (k msg : String) : MessageMap :=
  setKey m k msg

/-- Matched-field validation of `addInputErrors` (lines 305-333): the
zero value's `InputValidator` if implemented, else its
`RequestValueReceiver`, else the convertibility check with the message
`"Input is of the wrong type and cannot be converted"`. -/
def checkMatched (caps : IOCaps) (v : InVal) (name : String) (notes : MessageMap) : MessageMap :=
  match caps.validator with
  | some f =>
    match f v with
    | some e => setInputMessage notes name e
    | none => notes
  | none =>
    match caps.receiver with
    | some f =>
      match f v with
      | some e => setInputMessage notes name e
      | none => notes
    | none =>
      if convertibleTo v.tyName caps.fieldTy = false then
        setInputMessage notes name "Input is of the wrong type and cannot be converted"
      else notes

/-- Model of `addInputErrors` (lines 275-334): anonymous fields recurse
into their type against the same parameter set; a named field with no
parameter records `"No input for required field"` unless marked
optional; a matched parameter is removed from the set and validated via
`checkMatched`.  The Go in-place mutation of `params` and
`notifications` is modelled by returning the updated pair. -/
def addInputErrors : List InField → Params → MessageMap → Params × MessageMap
  | [], params, notes => (params, notes)
  | .anon nested :: rest, params, notes =>
    let r := addInputErrors nested params notes
    addInputErrors rest r.1 r.2
  | .named name args caps :: rest, params, notes =>
    let optional := args.contains "optional"
    match lookupKey params name with
    | none =>
      if optional then addInputErrors rest params notes
      else addInputErrors rest params (setInputMessage notes name "No input for required field")
    | some v => addInputErrors rest (eraseKey params name) (checkMatched caps v name notes)
termination_by fields => sizeOf fields
decreasing_by
all_goals
  simp only [List.cons.sizeOf_spec, InField.anon.sizeOf_spec]
  omega

/-- Model of `RespondWithInputErrors` (lines 259-271) restricted to its
collection core: after `addInputErrors`, every remaining entry of the
parameter set is reported as `"No target field found for this input"`.
Parameter parsing and the HTTP `Respond` call are external
collaborators outside this model. -/
def RespondWithInputErrors (fields : List InField) (params : Params) (notes : MessageMap) :
    MessageMap :=
  let r := addInputErrors fields params notes
  r.1.foldl (fun n kv => setInputMessage n kv.1 "No target field found for this input") r.2

/-! ### Association-list lemmas -/

/-- Lookup after writing the same key. -/
theorem lookupKey_setKey_self {α : Type} (l : List (String × α)) (k : String) (v : α) :
    lookupKey (setKey l k v) k = some v := by
  induction l with
  | nil => simp [setKey, lookupKey]
  | cons hd tl ih =>
    by_cases h : hd.1 = k
    · simp [setKey, h, lookupKey]
    · cases hd
      simp only [setKey, lookupKey]
      simp_all [lookupKey]

/-- Lookup after writing a different key. -/
theorem lookupKey_setKey_ne {α : Type} (l : List (String × α)) (k k' : String) (v : α)
    (h : k' ≠ k) : lookupKey (setKey l k' v) k = lookupKey l k := by
  induction l with
  | nil => simp [setKey, lookupKey, h]
  | cons hd tl ih =>
    cases hd with
    | mk k₀ v₀ =>
      by_cases h0 : k₀ = k'
      · simp [setKey, h0, lookupKey, h]
      · simp only [setKey, h0, if_false, lookupKey]
        by_cases h1 : k₀ = k <;> simp [h1, ih]

/-- Lookup in an appended list when the key is found on the left. -/
theorem lookupKey_append_left {α : Type} (l₁ l₂ : List (String × α)) (k : String) (v : α)
    (h : lookupKey l₁ k = some v) : lookupKey (l₁ ++ l₂) k = some v := by
  induction l₁ with
  | nil => simp [lookupKey] at h
  | cons hd tl ih =>
    cases hd with
    | mk k₀ v₀ =>
      simp only [List.cons_append, lookupKey] at h ⊢
      by_cases h0 : k₀ = k
      · simp only [h0, if_pos rfl] at h ⊢
        exact h
      · simp only [h0, if_false] at h ⊢
        exact ih h

/-- One step of the embedded-response merge. -/
theorem mergeEmbedded_cons (acc : List (String × Val)) (hd : String × Val)
    (tl : List (String × Val)) :
    mergeEmbedded acc (hd :: tl)
      = mergeEmbedded (if containsKey acc hd.1 then acc else acc ++ [hd]) tl := rfl

/-- Merging an embedded response never changes a key that is already
present. -/
theorem lookupKey_mergeEmbedded (acc em : List (String × Val)) (k : String)
    (h : containsKey acc k = true) :
    lookupKey (mergeEmbedded acc em) k = lookupKey acc k := by
  induction em generalizing acc with
  | nil => simp [mergeEmbedded]
  | cons hd tl ih =>
    rw [mergeEmbedded_cons]
    by_cases hc : containsKey acc hd.1
    · rw [if_pos hc]
      exact ih acc h
    · rw [if_neg hc]
      obtain ⟨v, hv⟩ := Option.isSome_iff_exists.mp (by simpa [containsKey] using h)
      have h2 : lookupKey (acc ++ [hd]) k = some v := lookupKey_append_left acc [hd] k v hv
      have h3 : containsKey (acc ++ [hd]) k = true := by simp [containsKey, h2]
      rw [ih (acc ++ [hd]) h3, h2, hv]

/-- Key presence is stable under merging an embedded response. -/
theorem containsKey_mergeEmbedded (acc em : List (String × Val)) (k : String)
    (h : containsKey acc k = true) :
    containsKey (mergeEmbedded acc em) k = true := by
  simpa [containsKey, lookupKey_mergeEmbedded acc em k h] using h

/-- Shape of the events of a successful `createResponse`: the lazy-load
events of the entry step come first. -/
theorem createResponse_ok_events (data : Val) (isSub : Bool) (opts : Option Opts)
    (ctor : Option CtorF) (r : Val) (evs : List Event)
    (h : createResponse data isSub opts ctor = .ok (r, evs)) :
    ∃ e, evs = lazyEvents data opts ++ e := by
  simp only [createResponse] at h
  split at h
  · split at h
    · exact absurd h (by simp)
    · simp only [Except.ok.injEq, Prod.mk.injEq] at h
      exact ⟨_, h.2.symm⟩
  · split at h
    · exact absurd h (by simp)
    · split at h
      · split at h
        · simp only [Except.ok.injEq, Prod.mk.injEq] at h
          exact ⟨_, h.2.symm⟩
        · exact absurd h (by simp)
      · simp only [Except.ok.injEq, Prod.mk.injEq] at h
        exact ⟨_, h.2.symm⟩
  · split at h
    · exact absurd h (by simp)
    · simp only [Except.ok.injEq, Prod.mk.injEq] at h
      exact ⟨_, h.2.symm⟩
  · simp only [Except.ok.injEq, Prod.mk.injEq] at h
    exact ⟨[], by simp [h.2.symm]⟩

/-! ### Claim theorems -/

/-- C1: for a value rendered as a field, element, or mapping value
(`createResponseValue`), when the narrowed options do not set the
`"full"` directive the result is decided by the first capability in the
fixed order custom producer (invoked with the narrowed options, result
verbatim), string conversion, error message, structural recursion; when
`"full"` is set, the capability checks are skipped and structural
recursion is always taken. -/
theorem c1_capability_dispatch (v : Val) (opts : Option Opts) (ctor : Option CtorF) :
    (isFull opts = true → createResponseValue v opts ctor = createResponse v true opts ctor)
    ∧ (isFull opts = false →
      (∀ p, respValCap v = some p →
        createResponseValue v opts ctor = .ok (runProducer p opts, []))
      ∧ (∀ s, respValCap v = none → strCap v = some s →
        createResponseValue v opts ctor = .ok (.strV s, []))
      ∧ (∀ m, respValCap v = none → strCap v = none → errCap v = some m →
        createResponseValue v opts ctor = .ok (.strV m, []))
      ∧ (respValCap v = none → strCap v = none → errCap v = none →
        createResponseValue v opts ctor = createResponse v true opts ctor)) := by
  refine ⟨fun hf => ?_, fun hf => ⟨fun p hp => ?_, fun s hp hs => ?_,
    fun m hp hs he => ?_, fun hp hs he => ?_⟩⟩
  · simp [createResponseValue, hf]
  · simp [createResponseValue, hf, hp]
  · simp [createResponseValue, hf, hp, hs]
  · simp [createResponseValue, hf, hp, hs, he]
  · simp [createResponseValue, hf, hp, hs, he]

/-- Witness for C1: a producer-capability value receives the narrowed
options and its result is used verbatim. -/
theorem c1_capability_dispatch_witness :
    isFull (some [("a", OptVal.str "b")]) = false ∧
    respValCap (Val.iface false none (some .echoOpts) (some "s") (some "e") .nilV)
      = some .echoOpts ∧
    createResponseValue (Val.iface false none (some .echoOpts) (some "s") (some "e") .nilV)
      (some [("a", OptVal.str "b")]) none
      = .ok (.mapV false [("a", .strV "b")], []) := by
  refine ⟨by simp [isFull, lookupKey], rfl, ?_⟩
  have h := ((c1_capability_dispatch
    (Val.iface false none (some .echoOpts) (some "s") (some "e") .nilV)
    (some [("a", OptVal.str "b")]) none).2 (by simp [isFull, lookupKey])).1 .echoOpts rfl
  rw [h]
  simp [runProducer, encodeOpts, encodeOptVal, encodeOptVal.encodeOptEntries]

/-- C3: the resolved external name of a struct field is the `response`
tag when present (`"-"` suppressing the field entirely), else — for
fields not literally named `Id` — the `db` tag when present and not
`"-"`, else the lower-cased declared name; a field resolving to `"-"`
contributes no key to the response. -/
theorem c3_tag_resolution (f : FieldMeta) :
    (f.responseTag ≠ "" → ResponseTag f = f.responseTag)
    ∧ (f.responseTag = "" → f.name ≠ "Id" → f.dbTag ≠ "" → f.dbTag ≠ "-" →
      ResponseTag f = f.dbTag)
    ∧ (f.responseTag = "" → (f.name = "Id" ∨ f.dbTag = "" ∨ f.dbTag = "-") →
      ResponseTag f = toLowerStr f.name)
    ∧ (∀ fv rest opts ctor acc evs, f.anonymous = false → isExported f = true →
      ResponseTag f = "-" →
      structFields ((f, fv) :: rest) opts ctor acc evs = structFields rest opts ctor acc evs) := by
  refine ⟨fun h1 => ?_, fun h1 h2 h3 h4 => ?_, fun h1 h2 => ?_,
    fun fv rest opts ctor acc evs ha he ht => ?_⟩
  · simp [ResponseTag, h1]
  · simp [ResponseTag, h1, h2, h3, h4]
  · rcases h2 with h2 | h2 | h2 <;> simp [ResponseTag, h1, h2]
  · simp [structFields, ha, he, ht]

/-- Witness for C3: a field with both tags resolves to the `response`
tag; a suppressed field is skipped by the field walk. -/
theorem c3_tag_resolution_witness :
    ResponseTag ⟨"Name", "label", "name_col", false⟩ = "label" ∧
    structFields [(⟨"Secret", "-", "", false⟩, Val.intV 1)] none none [] []
      = structFields [] none none [] [] := by
  constructor
  · exact (c3_tag_resolution ⟨"Name", "label", "name_col", false⟩).1 (by simp)
  · exact (c3_tag_resolution ⟨"Secret", "-", "", false⟩).2.2.2 (Val.intV 1) [] none none [] []
      rfl (by simp [isExported, show ("Secret".front.isUpper) = true from rfl])
      (by simp [ResponseTag])

/-- C7: a top-level value satisfying the `error` capability makes the
exported `CreateResponse` return exactly its message text, with no
lazy-load event and no structural decomposition. -/
theorem c7_top_level_error (data : Val) (opts : Option Opts) (ctor : Option CtorF) (m : String)
    (h : errCap data = some m) :
    CreateResponse data opts ctor = .ok (.strV m, []) := by
  simp [CreateResponse, h]

/-- Witness for C7: an error value that also carries a lazy-load and a
producer capability still short-circuits to its message with no events. -/
theorem c7_top_level_error_witness :
    errCap (Val.iface true none (some (.const (.intV 3))) none (some "boom") (Val.intV 1))
      = some "boom" ∧
    CreateResponse (Val.iface true none (some (.const (.intV 3))) none (some "boom") (Val.intV 1))
      (some []) none = .ok (.strV "boom", []) :=
  ⟨rfl, c7_top_level_error
    (Val.iface true none (some (.const (.intV 3))) none (some "boom") (Val.intV 1))
    (some []) none "boom" rfl⟩

/-- C2: evaluation of `createMapResponse` at a mapping whose non-nil
options contain neither the entry's key nor `"*"`: the missing
`Has`-guard (present in the struct path) leaves the `*objx.Value` nil
and `IsMSI()` dereferences it — the render panics instead of producing
the normally rendered entry. -/
theorem c2_map_missing_guard_eval :
    createMapResponse false [("a", Val.intV 1)] (some [("b", OptVal.node [])]) none
      = .error .nilValueDeref ∧
    createMapResponse false [("a", Val.intV 1)] (some [("b", OptVal.node [])]) none
      ≠ .ok (.mapV false [("a", Val.intV 1)], []) := by
  constructor
  · simp [createMapResponse, mapEntries, narrowMap, lookupKey]
  · simp [createMapResponse, mapEntries, narrowMap, lookupKey]

/-- C8 counterexample: a sequence rendered as a sub-response with
non-nil options and no constructor supplied is not returned unwrapped —
the code calls the nil constructor function (a panic). -/
theorem c8_nil_constructor_counterexample :
    createResponse (Val.sliceV []) true (some []) none = .error .nilFunc ∧
    createResponse (Val.sliceV []) true (some []) none ≠ .ok (.sliceV [], []) := by
  constructor
  · simp [createResponse, createSliceResponse, kindView, stripIface, respObjStep, respObjCap,
      lazyEvents, lazyCap]
  · simp [createResponse, createSliceResponse, kindView, stripIface, respObjStep, respObjCap,
      lazyEvents, lazyCap]

/-- C8 amended: the constructor callback is applied to the whole
produced sequence, with the original sequence value as second argument,
exactly when options are non-nil, the call is a sub-response, and a
constructor is supplied; with options non-nil and a sub-response but no
constructor supplied the render aborts (nil function call); in every
remaining case the rendered sequence is returned unwrapped. -/
theorem c8_slice_constructor (es : List Val) (isSub : Bool) (opts : Option Opts)
    (ctor : Option CtorF) (vs : List Val) (evs : List Event)
    (h : createSliceResponse es opts ctor = .ok (vs, evs)) :
    createResponse (.sliceV es) isSub opts ctor =
      if opts.isSome && isSub then
        match ctor with
        | some f => .ok (f (.sliceV vs) (.sliceV es), evs)
        | none => .error .nilFunc
      else .ok (.sliceV vs, evs) := by
  cases opts <;> cases isSub <;> cases ctor <;>
    simp [createResponse, kindView, stripIface, respObjStep, respObjCap, lazyEvents, lazyCap,
      afterDeref, h]

/-- Witness for C8 amended: with options, a sub-response call, and a
supplied constructor, the constructor wraps the rendered sequence and
receives the original sequence. -/
theorem c8_slice_constructor_witness :
    createSliceResponse [Val.intV 1] (some []) (some fun r o => Val.sliceV [r, o])
      = .ok ([Val.intV 1], []) ∧
    createResponse (Val.sliceV [Val.intV 1]) true (some [])
      (some fun r o => Val.sliceV [r, o])
      = .ok (.sliceV [.sliceV [.intV 1], .sliceV [.intV 1]], []) := by
  have heval : createSliceResponse [Val.intV 1] (some []) (some fun r o => Val.sliceV [r, o])
      = .ok ([Val.intV 1], []) := by
    simp [createSliceResponse, createResponseValue, createResponse, respValCap, strCap, errCap,
      isFull, lookupKey, kindView, stripIface, respObjStep, respObjCap, lazyEvents, lazyCap]
  refine ⟨heval, ?_⟩
  have h := c8_slice_constructor [Val.intV 1] true (some [])
    (some fun r o => Val.sliceV [r, o]) [Val.intV 1] [] heval
  simpa using h

/-- C5 counterexample: a struct whose type name has the nullable marker
and whose `Valid` field exists but is not boolean does not fall back to
the ordinary field walk as the claim states — the `.(bool)` type
assertion panics. -/
theorem c5_nonbool_valid_counterexample :
    createStructResponse "NullInt"
      [(⟨"Int", "", "", false⟩, Val.intV 7), (⟨"Valid", "", "", false⟩, Val.intV 1)]
      none none = .error .boolAssert ∧
    structFields [(⟨"Int", "", "", false⟩, Val.intV 7), (⟨"Valid", "", "", false⟩, Val.intV 1)]
      none none [] [] = .ok ([("int", .intV 7), ("valid", .intV 1)], []) ∧
    (Except.error RErr.boolAssert : RRes)
      ≠ .ok (.mapV true [("int", .intV 7), ("valid", .intV 1)], []) := by
  refine ⟨?_, ?_, by simp⟩
  · simp [createStructResponse, createNullableDbResponse, sqlNullableMarker, fieldByName,
      strHasInitial, listInitial, show "NullInt".drop "Null".length = "Int" from rfl]
  · simp [structFields, isExported, ResponseTag, narrowStruct, createResponseValue,
      createResponse, respValCap, strCap, errCap, isFull, kindView, stripIface,
      respObjStep, respObjCap, lazyEvents, lazyCap, setKey, toLowerStr,
      show ("Int".front.isUpper) = true from rfl,
      show ("Valid".front.isUpper) = true from rfl]

/-- C5 amended: nullable unwrapping fires for a struct exactly when its
type name carries the `"Null"` marker and it has both the suffix-named
payload field and a field literally named `Valid`; with a boolean
`Valid` it renders to the payload (`Valid=true`) or to the absent nil
value (`Valid=false`); with a non-boolean `Valid` the render aborts on
the `.(bool)` assertion; when it does not fire the struct is rendered by
the ordinary field walk. -/
theorem c5_nullable_unwrap (tn : String) (fields : List (FieldMeta × Val))
    (opts : Option Opts) (ctor : Option CtorF) :
    (∀ pv b, strHasInitial tn sqlNullableMarker = true →
      fieldByName fields (tn.drop sqlNullableMarker.length) = some pv →
      fieldByName fields "Valid" = some (.boolV b) →
      createStructResponse tn fields opts ctor = .ok ((if b then pv else .nilV), []))
    ∧ (∀ pv vv, strHasInitial tn sqlNullableMarker = true →
      fieldByName fields (tn.drop sqlNullableMarker.length) = some pv →
      fieldByName fields "Valid" = some vv → (∀ b, vv ≠ .boolV b) →
      createStructResponse tn fields opts ctor = .error .boolAssert)
    ∧ ((strHasInitial tn sqlNullableMarker = false ∨
        fieldByName fields (tn.drop sqlNullableMarker.length) = none ∨
        fieldByName fields "Valid" = none) →
      createStructResponse tn fields opts ctor =
        match structFields fields opts ctor [] [] with
        | .error e => .error e
        | .ok (m, e) => .ok (.mapV true m, e)) := by
  refine ⟨fun pv b h1 h2 h3 => ?_, fun pv vv h1 h2 h3 h4 => ?_, fun h1 => ?_⟩
  · cases b <;> simp [createStructResponse, createNullableDbResponse, h1, h2, h3]
  · cases vv with
    | boolV b => exact absurd rfl (h4 b)
    | nilV => simp [createStructResponse, createNullableDbResponse, h1, h2, h3]
    | intV n => simp [createStructResponse, createNullableDbResponse, h1, h2, h3]
    | strV s => simp [createStructResponse, createNullableDbResponse, h1, h2, h3]
    | structV t f => simp [createStructResponse, createNullableDbResponse, h1, h2, h3]
    | sliceV es => simp [createStructResponse, createNullableDbResponse, h1, h2, h3]
    | mapV o es => simp [createStructResponse, createNullableDbResponse, h1, h2, h3]
    | ptrV t => simp [createStructResponse, createNullableDbResponse, h1, h2, h3]
    | iface lz ro rv st er inner =>
      simp [createStructResponse, createNullableDbResponse, h1, h2, h3]
  · rcases h1 with h1 | h1 | h1
    · simp [createStructResponse, createNullableDbResponse, h1]
    · cases h2 : fieldByName fields "Valid" <;>
        simp [createStructResponse, createNullableDbResponse, h1, h2]
    · cases h2 : fieldByName fields (tn.drop sqlNullableMarker.length) <;>
        simp [createStructResponse, createNullableDbResponse, h1, h2]

/-- Witness for C5 amended: the `NullInt` shape with `Valid=true`
unwraps to its payload `7`, and with `Valid=false` to the absent value. -/
theorem c5_nullable_unwrap_witness :
    strHasInitial "NullInt" sqlNullableMarker = true ∧
    fieldByName [(⟨"Int", "", "", false⟩, Val.intV 7), (⟨"Valid", "", "", false⟩, Val.boolV true)]
      ("NullInt".drop sqlNullableMarker.length) = some (.intV 7) ∧
    createStructResponse "NullInt"
      [(⟨"Int", "", "", false⟩, Val.intV 7), (⟨"Valid", "", "", false⟩, Val.boolV true)]
      none none = .ok (.intV 7, []) ∧
    createStructResponse "NullInt"
      [(⟨"Int", "", "", false⟩, Val.intV 7), (⟨"Valid", "", "", false⟩, Val.boolV false)]
      none none = .ok (.nilV, []) := by
  have hdrop : "NullInt".drop sqlNullableMarker.length = "Int" := rfl
  refine ⟨rfl, by rw [hdrop]; rfl, ?_, ?_⟩
  · have h := (c5_nullable_unwrap "NullInt"
      [(⟨"Int", "", "", false⟩, Val.intV 7), (⟨"Valid", "", "", false⟩, Val.boolV true)]
      none none).1 (.intV 7) true rfl (by rw [hdrop]; rfl) (by rfl)
    simpa using h
  · have h := (c5_nullable_unwrap "NullInt"
      [(⟨"Int", "", "", false⟩, Val.intV 7), (⟨"Valid", "", "", false⟩, Val.boolV false)]
      none none).1 (.intV 7) false rfl (by rw [hdrop]; rfl) (by rfl)
    simpa using h

/-- C6 counterexample: a field value exposing both the lazy-load and the
string-conversion capability renders to its string form with an empty
event list — the lazy-load hook is never invoked for it, contradicting
the claim that rendering such a value always triggers lazy loading. -/
theorem c6_lazy_skipped_counterexample :
    lazyCap (Val.iface true none none (some "str form") none (Val.intV 1)) = true ∧
    createResponseValue (Val.iface true none none (some "str form") none (Val.intV 1))
      none none = .ok (.strV "str form", []) := by
  constructor
  · rfl
  · simp [createResponseValue, respValCap, strCap, isFull]

/-- C6 amended: the lazy-load hook is invoked, with the current options,
only at the start of structural rendering (`createResponse`) — the
entry path for the top level and for values reaching structural
recursion — so a successful `createResponse` on a lazy-capable value
records the lazy-load event (with those options) first; when a
field/element/mapping value matches a producer, string, or error
capability without `"full"` mode, its render completes with no
lazy-load event at all. -/
theorem c6_lazy_load (data : Val) (isSub : Bool) (opts : Option Opts) (ctor : Option CtorF) :
    (lazyCap data = true → ∀ r evs, createResponse data isSub opts ctor = .ok (r, evs) →
      evs.head? = some (Event.lazyLoad opts))
    ∧ (∀ v : Val, isFull opts = false →
      (respValCap v ≠ none ∨ strCap v ≠ none ∨ errCap v ≠ none) →
      ∃ r, createResponseValue v opts ctor = .ok (r, [])) := by
  constructor
  · intro hl r evs h
    obtain ⟨e, he⟩ := createResponse_ok_events data isSub opts ctor r evs h
    simp [he, lazyEvents, hl]
  · intro v hf hcap
    cases hp : respValCap v with
    | some p => exact ⟨runProducer p opts, by simp [createResponseValue, hf, hp]⟩
    | none =>
      cases hs : strCap v with
      | some s => exact ⟨.strV s, by simp [createResponseValue, hf, hp, hs]⟩
      | none =>
        cases he : errCap v with
        | some m => exact ⟨.strV m, by simp [createResponseValue, hf, hp, hs, he]⟩
        | none => simp [hp, hs, he] at hcap

/-- Witness for C6 amended: a lazy-capable scalar rendered through
`createResponse` records the lazy-load event with the passed options. -/
theorem c6_lazy_load_witness :
    lazyCap (Val.iface true none none none none (Val.intV 1)) = true ∧
    createResponse (Val.iface true none none none none (Val.intV 1)) false
      (some [("x", OptVal.str "y")]) none
      = .ok (.iface true none none none none (.intV 1),
          [Event.lazyLoad (some [("x", OptVal.str "y")])]) ∧
    ([Event.lazyLoad (some [("x", OptVal.str "y")])] : List Event).head?
      = some (Event.lazyLoad (some [("x", OptVal.str "y")])) := by
  have heval : createResponse (Val.iface true none none none none (Val.intV 1)) false
      (some [("x", OptVal.str "y")]) none
      = .ok (.iface true none none none none (.intV 1),
          [Event.lazyLoad (some [("x", OptVal.str "y")])]) := by
    simp [createResponse, kindView, stripIface, respObjStep, respObjCap, lazyEvents, lazyCap]
  exact ⟨rfl, heval,
    (c6_lazy_load (Val.iface true none none none none (Val.intV 1)) false
      (some [("x", OptVal.str "y")]) none).1 rfl _ _ heval⟩

/-- Entry loop of map rendering under nil options: every entry's value
is rendered with nil sub-options; entries rendering to untyped nil are
omitted, all others keep their original keys and order, and the events
are concatenated in entry order. -/
theorem mapEntries_none_ok (entries : List (String × Val)) (ctor : Option CtorF)
    (h : ∀ kv ∈ entries, ∃ w evs, createResponseValue kv.2 none ctor = .ok (w, evs)) :
    mapEntries entries none ctor =
      .ok (entries.filterMap (fun kv =>
          match createResponseValue kv.2 none ctor with
          | .ok (w, _) => if isNilV w then none else some (kv.1, w)
          | .error _ => none),
        entries.foldr (fun kv acc =>
          (match createResponseValue kv.2 none ctor with
           | .ok (_, e) => e
           | .error _ => []) ++ acc) []) := by
  induction entries with
  | nil => simp [mapEntries]
  | cons hd tl ih =>
    obtain ⟨w, evs, hw⟩ := h hd (by simp)
    have ih' := ih (fun kv hkv => h kv (by simp [hkv]))
    cases hd with
    | mk k v =>
      simp only at hw
      simp only [mapEntries, narrowMap, hw, ih', List.filterMap_cons, List.foldr_cons]
      cases hn : isNilV w <;> simp [hw, hn]

/-- C10: in a mapping rendered with nil options, an entry whose value
renders to the untyped nil (for instance a nullable wrapper with
`Valid=false`) is entirely absent from the produced mapping — its key
does not appear — because `SetMapIndex` with a zero `reflect.Value`
deletes the key; all other entries appear under their original keys. -/
theorem c10_nil_entries_absent (isObjx : Bool) (entries : List (String × Val))
    (ctor : Option CtorF)
    (h : ∀ kv ∈ entries, ∃ w evs, createResponseValue kv.2 none ctor = .ok (w, evs)) :
    createMapResponse isObjx entries none ctor =
      .ok (.mapV isObjx (entries.filterMap (fun kv =>
          match createResponseValue kv.2 none ctor with
          | .ok (w, _) => if isNilV w then none else some (kv.1, w)
          | .error _ => none)),
        entries.foldr (fun kv acc =>
          (match createResponseValue kv.2 none ctor with
           | .ok (_, e) => e
           | .error _ => []) ++ acc) []) := by
  simp [createMapResponse, mapEntries_none_ok entries ctor h]

/-- Witness for C10: a `NullInt Valid=false` value renders to the
untyped nil, and a mapping with an entry rendering to nil plus an
integer entry renders to a mapping holding only the integer entry — the
nil-rendering entry's key is absent. -/
theorem c10_nil_entries_absent_witness :
    createResponseValue
      (Val.structV "NullInt"
        [(⟨"Int", "", "", false⟩, Val.intV 7), (⟨"Valid", "", "", false⟩, Val.boolV false)])
      none none = .ok (.nilV, []) ∧
    createMapResponse false [("gone", Val.nilV), ("kept", Val.intV 2)] none none
      = .ok (.mapV false [("kept", .intV 2)], []) := by
  have h0 : createResponseValue
      (Val.structV "NullInt"
        [(⟨"Int", "", "", false⟩, Val.intV 7), (⟨"Valid", "", "", false⟩, Val.boolV false)])
      none none = .ok (.nilV, []) := by
    simp [createResponseValue, respValCap, strCap, errCap, isFull, createResponse,
      kindView, stripIface, respObjStep, respObjCap, lazyEvents, lazyCap,
      createStructResponse, createNullableDbResponse, sqlNullableMarker, fieldByName,
      strHasInitial, listInitial, show "NullInt".drop "Null".length = "Int" from rfl]
  have h1 : createResponseValue Val.nilV none none = .ok (.nilV, []) := by
    simp [createResponseValue, respValCap, strCap, errCap, isFull, createResponse,
      kindView, stripIface, respObjStep, respObjCap, lazyEvents, lazyCap]
  have h2 : createResponseValue (Val.intV 2) none none = .ok (.intV 2, []) := by
    simp [createResponseValue, respValCap, strCap, errCap, isFull, createResponse,
      kindView, stripIface, respObjStep, respObjCap, lazyEvents, lazyCap]
  refine ⟨h0, ?_⟩
  have h := c10_nil_entries_absent false [("gone", Val.nilV), ("kept", Val.intV 2)] none
    (by
      intro kv hkv
      rcases List.mem_cons.mp hkv with h | h
      · exact h ▸ ⟨.nilV, [], h1⟩
      · have h' := List.mem_singleton.mp h
        exact h' ▸ ⟨.intV 2, [], h2⟩)
  rw [h]
  simp [h1, h2, isNilV]

/-- Setting the same message for other keys preserves an entry already
holding that message. -/
theorem foldl_setInputMessage_found (l : Params) (notes : MessageMap) (k msg : String)
    (h : lookupKey notes k = some msg) :
    lookupKey (l.foldl (fun n kv => setInputMessage n kv.1 msg) notes) k = some msg := by
  induction l generalizing notes with
  | nil => simpa using h
  | cons hd tl ih =>
    simp only [List.foldl_cons]
    apply ih
    by_cases h1 : hd.1 = k
    · rw [setInputMessage, h1, lookupKey_setKey_self]
    · rw [setInputMessage, lookupKey_setKey_ne _ _ _ _ h1, h]

/-- Every key of the leftover parameter list ends up mapped to the
message written by the reporting fold. -/
theorem foldl_setInputMessage_contains (l : Params) (notes : MessageMap) (k msg : String)
    (h : containsKey l k = true) :
    lookupKey (l.foldl (fun n kv => setInputMessage n kv.1 msg) notes) k = some msg := by
  induction l generalizing notes with
  | nil => simp [containsKey, lookupKey] at h
  | cons hd tl ih =>
    simp only [List.foldl_cons]
    by_cases h1 : hd.1 = k
    · apply foldl_setInputMessage_found
      rw [setInputMessage, h1, lookupKey_setKey_self]
    · apply ih
      cases hd with
      | mk k₁ v₁ =>
        simp only [containsKey, lookupKey] at h
        simpa [h1] using h

/-- C9: the input-error collection records `"No input for required
field"` for a named field with no matching parameter unless the field
is marked optional (in which case nothing is recorded and the state is
unchanged), removes each matched parameter from the parameter set while
validating it, and afterwards reports every remaining parameter as
`"No target field found for this input"`. -/
theorem c9_input_error_collection :
    (∀ name args caps rest params notes,
      lookupKey params name = none → args.contains "optional" = false →
      addInputErrors (.named name args caps :: rest) params notes
        = addInputErrors rest params (setInputMessage notes name "No input for required field"))
    ∧ (∀ name args caps rest params notes,
      lookupKey params name = none → args.contains "optional" = true →
      addInputErrors (.named name args caps :: rest) params notes
        = addInputErrors rest params notes)
    ∧ (∀ name args caps rest params notes v,
      lookupKey params name = some v →
      addInputErrors (.named name args caps :: rest) params notes
        = addInputErrors rest (eraseKey params name) (checkMatched caps v name notes))
    ∧ (∀ fields params notes k,
      containsKey (addInputErrors fields params notes).1 k = true →
      lookupKey (RespondWithInputErrors fields params notes) k
        = some "No target field found for this input") := by
  refine ⟨fun name args caps rest params notes h1 h2 => ?_,
    fun name args caps rest params notes h1 h2 => ?_,
    fun name args caps rest params notes v h1 => ?_,
    fun fields params notes k h1 => ?_⟩
  · simp only [addInputErrors, h1, h2]
    simp
  · simp only [addInputErrors, h1, h2]
    simp
  · simp only [addInputErrors, h1]
  · exact foldl_setInputMessage_contains _ _ _ _ h1

/-- Witness for C9: the required field `Name` with empty input is
reported, the optional field `Age` is not; and with input
`Name="a", Extra="b"`, the field `Name` consumes its parameter and the
leftover `Extra` is reported as unmatched. -/
theorem c9_input_error_collection_witness :
    addInputErrors
        [.named "Name" [] ⟨none, none, "string"⟩, .named "Age" ["optional"] ⟨none, none, "int"⟩]
        [] []
      = addInputErrors [.named "Age" ["optional"] ⟨none, none, "int"⟩] []
          (setInputMessage [] "Name" "No input for required field") ∧
    addInputErrors
        [.named "Name" [] ⟨none, none, "string"⟩, .named "Age" ["optional"] ⟨none, none, "int"⟩]
        [] []
      = ([], [("Name", "No input for required field")]) ∧
    lookupKey (RespondWithInputErrors [.named "Name" [] ⟨none, none, "string"⟩]
        [("Name", .str "a"), ("Extra", .str "b")] []) "Extra"
      = some "No target field found for this input" := by
  refine ⟨(c9_input_error_collection.1 "Name" [] ⟨none, none, "string"⟩
      [.named "Age" ["optional"] ⟨none, none, "int"⟩] [] [] rfl rfl), ?_, ?_⟩
  · simp [addInputErrors, setInputMessage, setKey, lookupKey]
  · apply c9_input_error_collection.2.2.2
    simp [addInputErrors, lookupKey, eraseKey, checkMatched, convertibleTo, InVal.tyName,
      containsKey, List.filter]

/-- Walking further fields never changes a key that is already present
when no later own (named, visible) field resolves to it: embedded
merges never overwrite present keys, and writes to other names leave it
intact. -/
theorem structFields_preserves (fields : List (FieldMeta × Val)) (opts : Option Opts)
    (ctor : Option CtorF) (k : String) :
    ∀ acc evs res evsOut,
      structFields fields opts ctor acc evs = .ok (res, evsOut) →
      (∀ m v, (m, v) ∈ fields → m.anonymous = false → isExported m = true →
        ResponseTag m ≠ k) →
      containsKey acc k = true →
      lookupKey res k = lookupKey acc k := by
  induction fields with
  | nil =>
    intro acc evs res evsOut h _ _
    simp only [structFields, Except.ok.injEq, Prod.mk.injEq] at h
    rw [← h.1]
  | cons hd tl ih =>
    intro acc evs res evsOut h hown hacc
    obtain ⟨meta, fv⟩ := hd
    have hown' : ∀ m v, (m, v) ∈ tl → m.anonymous = false → isExported m = true →
        ResponseTag m ≠ k :=
      fun m v hm => hown m v (List.mem_cons_of_mem _ hm)
    simp only [structFields] at h
    split at h
    · rename_i hanon
      split at h
      · exact absurd h (by simp)
      · rw [ih _ _ _ _ h hown' (containsKey_mergeEmbedded _ _ _ hacc)]
        exact lookupKey_mergeEmbedded _ _ _ hacc
      · exact absurd h (by simp)
    · rename_i hanon
      split at h
      · rename_i hexp
        split at h
        · exact ih _ _ _ _ h hown' hacc
        · rename_i hdash
          split at h
          · exact absurd h (by simp)
          · split at h
            · exact absurd h (by simp)
            · rename_i subOpts hnarrow w evs' hrender
              have hne : ResponseTag meta ≠ k := by
                refine hown meta fv (List.mem_cons_self _ _) ?_ hexp
                cases hb : meta.anonymous
                · rfl
                · exact absurd hb hanon
              have hacc' : containsKey (setKey acc (ResponseTag meta) w) k = true := by
                unfold containsKey
                rw [lookupKey_setKey_ne _ _ _ _ hne]
                exact hacc
              rw [ih _ _ _ _ h hown' hacc']
              exact lookupKey_setKey_ne _ _ _ _ hne
      · exact ih _ _ _ _ h hown' hacc

/-- A successful field walk over an appended list passes through a
successful walk of the second part from some intermediate state. -/
theorem structFields_append (pre rest : List (FieldMeta × Val)) (opts : Option Opts)
    (ctor : Option CtorF) :
    ∀ acc evs res evsOut,
      structFields (pre ++ rest) opts ctor acc evs = .ok (res, evsOut) →
      ∃ acc' evs', structFields rest opts ctor acc' evs' = .ok (res, evsOut) := by
  induction pre with
  | nil => exact fun acc evs res evsOut h => ⟨acc, evs, h⟩
  | cons hd tl ih =>
    intro acc evs res evsOut h
    obtain ⟨meta, fv⟩ := hd
    simp only [List.cons_append, structFields] at h
    split at h
    · split at h
      · exact absurd h (by simp)
      · exact ih _ _ _ _ h
      · exact absurd h (by simp)
    · split at h
      · split at h
        · exact ih _ _ _ _ h
        · split at h
          · exact absurd h (by simp)
          · split at h
            · exact absurd h (by simp)
            · exact ih _ _ _ _ h
      · exact ih _ _ _ _ h

/-- C4: in a struct render, the enclosing struct's own (named, visible,
non-suppressed) field wins any key collision with an embedded field's
key, regardless of whether the embedded field is declared before the
own field (a later Go map assignment replaces the merged key) or after
it (the merge skips keys already set); embedded merges never overwrite
keys already present in the response. -/
theorem c4_embedded_first_writer (pre post : List (FieldMeta × Val)) (meta : FieldMeta)
    (fv : Val) (opts : Option Opts) (ctor : Option CtorF) (k : String) (subOpts : Option Opts)
    (w : Val) (evs' : List Event) (res : List (String × Val)) (evsOut : List Event)
    (hanon : meta.anonymous = false) (hexp : isExported meta = true)
    (htag : ResponseTag meta = k) (hdash : k ≠ "-")
    (hpost : ∀ m v, (m, v) ∈ post → m.anonymous = false → isExported m = true →
      ResponseTag m ≠ k)
    (hnarrow : narrowStruct opts k = .ok subOpts)
    (hrender : createResponseValue fv subOpts ctor = .ok (w, evs'))
    (hrun : structFields (pre ++ (meta, fv) :: post) opts ctor [] [] = .ok (res, evsOut)) :
    lookupKey res k = some w
    ∧ ∀ acc em k', containsKey acc k' = true →
        lookupKey (mergeEmbedded acc em) k' = lookupKey acc k' := by
  refine ⟨?_, fun acc em k' h => lookupKey_mergeEmbedded acc em k' h⟩
  obtain ⟨acc₁, evs₁, h1⟩ := structFields_append pre _ opts ctor [] [] res evsOut hrun
  simp only [structFields, hanon, hexp, htag, hdash, hnarrow, hrender, Bool.false_eq_true,
    if_false, if_true, ite_false, ite_true] at h1
  rw [structFields_preserves post opts ctor k _ _ _ _ h1 hpost
    (by unfold containsKey; rw [lookupKey_setKey_self]; rfl)]
  exact lookupKey_setKey_self _ _ _

/-- Witness for C4: an embedded struct producing key `"x"` declared
before an own field `X` also resolving to `"x"` — the own field's value
is the one retained. -/
theorem c4_embedded_first_writer_witness :
    structFields
        [(⟨"Inner", "", "", true⟩, Val.structV "Inner" [(⟨"X", "", "", false⟩, Val.intV 9)]),
          (⟨"X", "", "", false⟩, Val.intV 1)] none none [] []
      = .ok ([("x", .intV 1)], []) ∧
    lookupKey [("x", Val.intV 1)] "x" = some (.intV 1) := by
  have hrun : structFields
      ([(⟨"Inner", "", "", true⟩, Val.structV "Inner" [(⟨"X", "", "", false⟩, Val.intV 9)])]
        ++ (⟨"X", "", "", false⟩, Val.intV 1) :: []) none none [] []
      = .ok ([("x", .intV 1)], []) := by
    simp [structFields, CreateResponse, createResponse, createStructResponse,
      createNullableDbResponse, sqlNullableMarker, fieldByName, strHasInitial, listInitial,
      isExported, ResponseTag, narrowStruct, createResponseValue, respValCap, strCap, errCap,
      isFull, kindView, stripIface, respObjStep, respObjCap, lazyEvents, lazyCap, setKey,
      mergeEmbedded, containsKey, lookupKey, toLowerStr,
      show ("Inner".front.isUpper) = true from rfl, show ("X".front.isUpper) = true from rfl]
  refine ⟨by simpa using hrun, ?_⟩
  have h := c4_embedded_first_writer
    [(⟨"Inner", "", "", true⟩, Val.structV "Inner" [(⟨"X", "", "", false⟩, Val.intV 9)])]
    [] ⟨"X", "", "", false⟩ (Val.intV 1) none none "x" none (.intV 1) [] [("x", .intV 1)] []
    rfl rfl rfl (by simp) (by simp) rfl
    (by simp [createResponseValue, respValCap, strCap, errCap, isFull, createResponse,
      kindView, stripIface, respObjStep, respObjCap, lazyEvents, lazyCap])
    hrun
  exact h.1

end WebResponders
